import Mathlib

/-!
Shallow embedding of the HDFS CLI client (`src/hdfs/hdfs.cpp`) and of the
disk-usage probe exercised by `src/tests/disk_quota_tests.cpp`.

The client drives the `hadoop` command-line tool through a subprocess and
decodes its exit status and captured stdout/stderr into typed results.  We
model the asynchronous layer as follows: a settled future is a
`FutureOutcome` (ready, failed with a message, or discarded), and each
operation's `.then` continuation becomes a pure function from the decoded
`CommandResult` to `Except String α`.  The wait status of the subprocess is
modelled as a natural number (the nonnegative value reported by `waitpid`),
with `WIFEXITED`/`WEXITSTATUS` as the usual bit-mask operations.  Failure
messages are the source's strings, except that the single-quote characters
wrapping interpolated values are omitted.
-/

/-- Outcome of a settled libprocess future: ready with a value, failed with a
message, or discarded (cancelled). -/
inductive FutureOutcome (α : Type) where
  | ready : α → FutureOutcome α
  | failed : String → FutureOutcome α
  | discarded : FutureOutcome α
deriving DecidableEq

/-- Whether a settled future is ready (models `Future::isReady`). -/
def FutureOutcome.isReady {α : Type} : FutureOutcome α → Bool
  | .ready _ => true
  | _ => false

/-- Models the expression `f.isFailed() ? f.failure() : "discarded"` used on a
non-ready future in `result` (hdfs.cpp lines 70, 77, 84). -/
def FutureOutcome.failureReason {α : Type} : FutureOutcome α → String
  | .failed msg => msg
  | _ => "discarded"

/-- Models `struct CommandResult` (hdfs.cpp lines 45-50): optional wait
status, captured stdout and captured stderr. -/
structure CommandResult where
  status : Option Nat
  out : String
  err : String
deriving DecidableEq

/-- Models the static `result` combinator (hdfs.cpp lines 53-94): after
awaiting the status future and the two stream reads, check the three in
order (status, stdout, stderr); the first non-ready one produces the
classified failure, otherwise the structured `CommandResult` is produced. -/
def result (status : FutureOutcome (Option Nat)) (output error : FutureOutcome String) :
    Except String CommandResult :=
  match status with
  | .ready st =>
    match output with
    | .ready outv =>
      match error with
      | .ready errv => Except.ok ⟨st, outv, errv⟩
      | f => Except.error ("Failed to read stderr from the subprocess: " ++ f.failureReason)
    | f => Except.error ("Failed to read stdout from the subprocess: " ++ f.failureReason)
  | f => Except.error ("Failed to get the exit status of the subprocess: " ++ f.failureReason)

/-- Models `WIFEXITED` on a nonnegative wait status: the low 7 bits are 0. -/
def WIFEXITED (status : Nat) : Bool := status % 128 == 0

/-- Models `WEXITSTATUS` on a nonnegative wait status: bits 8..15. -/
def WEXITSTATUS (status : Nat) : Nat := status / 256 % 256

/-- The failure message used by every operation on an unexpected wait status
(hdfs.cpp lines 153-157, 184-188, 233-237, 269-273, 301-305); the
single-quote wrapping of the interpolated values is omitted. -/
def unexpectedResultMsg (status : Nat) (out err : String) : String :=
  "Unexpected result from the subprocess: status=" ++ toString status ++
    ", stdout=" ++ out ++ ", stderr=" ++ err

/-- Models the `.then` continuation of `HDFS::exists` (hdfs.cpp lines
138-158): absent status is a reap failure; a normal exit with code 0 yields
true and code 1 yields false; anything else is the unexpected-result
failure carrying status, stdout and stderr. -/
def existsCont (r : CommandResult) : Except String Bool :=
  match r.status with
  | none => Except.error "Failed to reap the subprocess"
  | some s =>
    if WIFEXITED s then
      if WEXITSTATUS s = 0 then Except.ok true
      else if WEXITSTATUS s = 1 then Except.ok false
      else Except.error (unexpectedResultMsg s r.out r.err)
    else Except.error (unexpectedResultMsg s r.out r.err)

/-- Splits a character list at every character satisfying the predicate,
keeping empty pieces (the helper under `strTokenize`). -/
def splitChars (p : Char → Bool) : List Char → List (List Char)
  | [] => [[]]
  | c :: rest =>
    let r := splitChars p rest
    if p c then [] :: r
    else (c :: r.headD []) :: r.tail

/-- Models `strings::tokenize` from stout: split on any delimiter character
and keep only the nonempty maximal runs of non-delimiter characters. -/
def strTokenize (s delims : String) : List String :=
  ((splitChars (fun c => delims.data.contains c) s.data).filter
    (fun t => ¬ t.isEmpty)).map (fun l => ⟨l⟩)

/-- Accumulating decimal parser over characters (the helper under
`numify`). -/
def numifyChars : List Char → Nat → Option Nat
  | [], acc => some acc
  | c :: rest, acc =>
    if c.isDigit then numifyChars rest (acc * 10 + (c.toNat - '0'.toNat))
    else none

/-- Models `numify<size_t>` from stout on tool output: parse a nonempty
all-digit string as a nonnegative decimal integer, or fail. -/
def numify (s : String) : Option Nat :=
  if s.data.isEmpty then none else numifyChars s.data 0

/-- Models the scanning loop of `HDFS::du` (hdfs.cpp lines 195-206) over the
list of stdout lines: tokenize each line on runs of spaces and tabs; if it
has exactly two fields (the two-element list pattern is the
`fields.size() == 2` check) whose second is the queried path and whose
first numifies, return that number; otherwise keep scanning. -/
def duScan (path : String) : List String → Option Nat
  | [] => none
  | line :: rest =>
    match strTokenize line " \t" with
    | [num, p] =>
      if p = path then
        match numify num with
        | some size => some size
        | none => duScan path rest
      else
        duScan path rest
    | _ => duScan path rest

/-- Models the `.then` continuation of `HDFS::du` (hdfs.cpp lines 177-209):
absent status is a reap failure; a nonzero status is the unexpected-result
failure; otherwise stdout is split into lines and scanned, and if no line
yields a size the operation fails with the unexpected-output-format message
carrying the raw stdout. -/
def duCont (path : String) (r : CommandResult) : Except String Nat :=
  match r.status with
  | none => Except.error "Failed to reap the subprocess"
  | some s =>
    if s ≠ 0 then Except.error (unexpectedResultMsg s r.out r.err)
    else
      match duScan path (strTokenize r.out "\n") with
      | some size => Except.ok size
      | none => Except.error ("Unexpected output format: " ++ r.out)

/-- Models the `.then` continuation of `HDFS::rm` (hdfs.cpp lines 226-241):
absent status is a reap failure, nonzero status is the unexpected-result
failure, and status 0 succeeds. -/
def rmCont (r : CommandResult) : Except String Unit :=
  match r.status with
  | none => Except.error "Failed to reap the subprocess"
  | some s =>
    if s ≠ 0 then Except.error (unexpectedResultMsg s r.out r.err)
    else Except.ok ()

/-- Drops one trailing slash character (models
`strings::remove(s, "/", SUFFIX)` as used by `path::join`). -/
def dropEndSlash (l : List Char) : List Char :=
  match l.getLast? with
  | some c => if c = '/' then l.dropLast else l
  | none => l

/-- Drops one leading slash character (models
`strings::remove(s, "/", PREFIX)` as used by `path::join`). -/
def dropLeadSlash : List Char → List Char
  | [] => []
  | c :: rest => if c = '/' then rest else c :: rest

/-- Models `path::join` from stout on two components: strip one trailing
slash from the first, one leading slash from the second, and join with a
slash. -/
def pathJoin (a b : String) : String :=
  ⟨dropEndSlash a.data ++ '/' :: dropLeadSlash b.data⟩

/-- Models `strings::startsWith` from stout. -/
def strStartsWith (s pre : String) : Bool := pre.data.isPrefixOf s.data

/-- Models `HDFS::absolutePath` (hdfs.cpp lines 313-321): a path starting
with the scheme marker or with a slash is returned unchanged; any other
path is joined onto the empty root. -/
def absolutePath (hdfsPath : String) : String :=
  if strStartsWith hdfsPath "hdfs://" || strStartsWith hdfsPath "/" then hdfsPath
  else pathJoin "" hdfsPath

/-- Models `HDFS::create`'s resolution of the hadoop client binary
(hdfs.cpp lines 102-113): an explicitly supplied path wins; otherwise the
`HADOOP_HOME` environment value joined with `bin` and `hadoop`; otherwise
the bare name `hadoop`. -/
def resolveHadoop (explicitHadoop hadoopHome : Option String) : String :=
  match explicitHadoop with
  | some h => h
  | none =>
    match hadoopHome with
    | some home => pathJoin (pathJoin home "bin") "hadoop"
    | none => "hadoop"

/-- Models `HDFS::create` (hdfs.cpp lines 97-122): resolve the binary, run
its version command through the shell as a liveness check, and return the
client (carrying the resolved binary) only if that check succeeds.  The
shell is passed in as an oracle from command line to `Try<string>`. -/
def hdfsCreate (explicitHadoop hadoopHome : Option String)
    (shell : String → Except String String) : Except String String :=
  let hadoop := resolveHadoop explicitHadoop hadoopHome
  match shell (hadoop ++ " version 2>&1") with
  | Except.error e => Except.error e
  | Except.ok _ => Except.ok hadoop

/-- The first step an HDFS operation takes: either an immediate failure or
the spawn of the external tool with a program and argument vector. -/
inductive HdfsCall where
  | failure : String → HdfsCall
  | spawn : String → List String → HdfsCall
deriving DecidableEq

/-- Models the front half of `HDFS::copyFromLocal` (hdfs.cpp lines 245-256):
if the local source does not exist the call fails at once naming the path,
and only otherwise is the copy-in subprocess spawned.  The local filesystem
existence check `os::exists` is passed in as an oracle. -/
def copyFromLocalCmd (osExists : String → Bool) (hadoop fromPath toPath : String) : HdfsCall :=
  if ¬ osExists fromPath then HdfsCall.failure ("Failed to find " ++ fromPath)
  else HdfsCall.spawn hadoop
    ["hadoop", "fs", "-copyFromLocal", fromPath, absolutePath toPath]

/-- Substring test used to state that a failure message carries a piece of
diagnostic text. -/
def strContains (s sub : String) : Bool := decide (sub.data <:+: s.data)

/-! Helper lemmas about the string model. -/

theorem string_data_append (a b : String) : (a ++ b).data = a.data ++ b.data := rfl

theorem pathJoin_data (a b : String) :
    (pathJoin a b).data = dropEndSlash a.data ++ '/' :: dropLeadSlash b.data := rfl

theorem dropLeadSlash_of_no_slash (l : List Char)
    (h : List.isPrefixOf ['/'] l = false) : dropLeadSlash l = l := by
  cases l with
  | nil => rfl
  | cons c rest =>
    simp [List.isPrefixOf] at h
    have hc : ¬ c = '/' := fun hc => h hc.symm
    simp [dropLeadSlash, hc]

theorem dropEndSlash_of_last_ne (l : List Char) (c : Char)
    (h : l.getLast? = some c) (hc : ¬ c = '/') : dropEndSlash l = l := by
  simp [dropEndSlash, h, hc]

theorem strContains_of_data (s sub : String) (pre post : List Char)
    (h : s.data = pre ++ sub.data ++ post) : strContains s sub = true := by
  simp only [strContains, decide_eq_true_eq]
  exact ⟨pre, post, h.symm⟩

/-- Claim C4: path normalization returns the input unchanged when it begins
with the scheme marker `hdfs://` or with a slash, and otherwise returns the
input prefixed with the filesystem root `/`. -/
theorem absolutePath_normalizes (p : String) :
    ((strStartsWith p "hdfs://" || strStartsWith p "/") = true → absolutePath p = p) ∧
    ((strStartsWith p "hdfs://" || strStartsWith p "/") = false → absolutePath p = "/" ++ p) := by
  constructor
  · intro h
    simp [absolutePath, h]
  · intro h
    have hslash : strStartsWith p "/" = false := by
      rcases Bool.or_eq_false_iff.mp h with ⟨_, h2⟩
      exact h2
    have hd : dropLeadSlash p.data = p.data :=
      dropLeadSlash_of_no_slash p.data hslash
    apply String.ext
    simp [absolutePath, h, pathJoin_data, hd, string_data_append]
    rfl

/-- Claim C4 witness at concrete inputs. -/
theorem absolutePath_normalizes_witness :
    absolutePath "hdfs://x/y" = "hdfs://x/y" ∧
    absolutePath "/a/b" = "/a/b" ∧
    absolutePath "a/b" = "/" ++ "a/b" :=
  ⟨(absolutePath_normalizes "hdfs://x/y").1 (by decide),
   (absolutePath_normalizes "/a/b").1 (by decide),
   (absolutePath_normalizes "a/b").2 (by decide)⟩

/-- Claim C10: path normalization is idempotent, since its output always
begins with the scheme marker or with a slash. -/
theorem absolutePath_idempotent (p : String) :
    absolutePath (absolutePath p) = absolutePath p := by
  by_cases h : (strStartsWith p "hdfs://" || strStartsWith p "/") = true
  · simp [absolutePath, h]
  · have h2 := eq_false_of_ne_true h
    have hslash : strStartsWith p "/" = false := by
      rcases Bool.or_eq_false_iff.mp h2 with ⟨_, hb⟩
      exact hb
    have hd : dropLeadSlash p.data = p.data :=
      dropLeadSlash_of_no_slash p.data hslash
    have hout : absolutePath p = "/" ++ p := (absolutePath_normalizes p).2 h2
    rw [hout]
    have hstart : strStartsWith ("/" ++ p) "/" = true := by
      simp [strStartsWith, string_data_append, List.isPrefixOf]
    simp [absolutePath, hstart]

/-- Claim C3: the command-result decoder checks the three awaited
completions in order (status, stdout, stderr); a non-ready status yields the
exit-status failure carrying the underlying message or `discarded`; a
non-ready stream read yields a failure naming that specific stream; and
when all three are ready the structured result is produced.  In particular
a stderr-read failure with stdout and status ready is attributed to stderr. -/
theorem result_decoder_attribution (st : FutureOutcome (Option Nat))
    (outF errF : FutureOutcome String) :
    (st.isReady = false →
      result st outF errF =
        Except.error ("Failed to get the exit status of the subprocess: " ++ st.failureReason) ∧
      (st = FutureOutcome.discarded → st.failureReason = "discarded") ∧
      (∀ m, st = FutureOutcome.failed m → st.failureReason = m)) ∧
    (st.isReady = true → outF.isReady = false →
      result st outF errF =
        Except.error ("Failed to read stdout from the subprocess: " ++ outF.failureReason) ∧
      (outF = FutureOutcome.discarded → outF.failureReason = "discarded") ∧
      (∀ m, outF = FutureOutcome.failed m → outF.failureReason = m)) ∧
    (st.isReady = true → outF.isReady = true → errF.isReady = false →
      result st outF errF =
        Except.error ("Failed to read stderr from the subprocess: " ++ errF.failureReason) ∧
      (errF = FutureOutcome.discarded → errF.failureReason = "discarded") ∧
      (∀ m, errF = FutureOutcome.failed m → errF.failureReason = m)) ∧
    (∀ s o e, st = FutureOutcome.ready s → outF = FutureOutcome.ready o →
      errF = FutureOutcome.ready e →
      result st outF errF = Except.ok ⟨s, o, e⟩) := by
  cases st <;> cases outF <;> cases errF <;>
    simp [result, FutureOutcome.isReady, FutureOutcome.failureReason]

/-- Claim C3 witness: a stderr-read failure with status and stdout ready is
attributed to stderr, and a discarded status is reported as discarded. -/
theorem result_decoder_attribution_witness :
    result (FutureOutcome.ready (some 0)) (FutureOutcome.ready "o") (FutureOutcome.failed "boom") =
      Except.error ("Failed to read stderr from the subprocess: " ++
        FutureOutcome.failureReason (FutureOutcome.failed "boom" : FutureOutcome String)) ∧
    result FutureOutcome.discarded (FutureOutcome.ready "o") (FutureOutcome.ready "e") =
      Except.error ("Failed to get the exit status of the subprocess: " ++
        FutureOutcome.failureReason (FutureOutcome.discarded (α := Option Nat))) ∧
    result (FutureOutcome.ready (some 0)) (FutureOutcome.ready "o") (FutureOutcome.ready "e") =
      Except.ok ⟨some 0, "o", "e"⟩ :=
  ⟨((result_decoder_attribution (FutureOutcome.ready (some 0)) (FutureOutcome.ready "o")
      (FutureOutcome.failed "boom")).2.2.1 rfl rfl rfl).1,
   ((result_decoder_attribution FutureOutcome.discarded (FutureOutcome.ready "o")
      (FutureOutcome.ready "e")).1 rfl).1,
   (result_decoder_attribution (FutureOutcome.ready (some 0)) (FutureOutcome.ready "o")
      (FutureOutcome.ready "e")).2.2.2 (some 0) "o" "e" rfl rfl rfl⟩

/-- Claim C2: the existence check yields true on exit code 0, false on exit
code 1, and fails on any other outcome (non-exited status, any other exit
code, or an absent status). -/
theorem exists_exit_code_contract (r : CommandResult) :
    (∀ s, r.status = some s → WIFEXITED s = true → WEXITSTATUS s = 0 →
      existsCont r = Except.ok true) ∧
    (∀ s, r.status = some s → WIFEXITED s = true → WEXITSTATUS s = 1 →
      existsCont r = Except.ok false) ∧
    (∀ s, r.status = some s →
      (WIFEXITED s = false ∨ (WEXITSTATUS s ≠ 0 ∧ WEXITSTATUS s ≠ 1)) →
      existsCont r = Except.error (unexpectedResultMsg s r.out r.err)) ∧
    (r.status = none → existsCont r = Except.error "Failed to reap the subprocess") := by
  refine ⟨?_, ?_, ?_, ?_⟩
  · intro s hs h1 h2
    simp [existsCont, hs, h1, h2]
  · intro s hs h1 h2
    simp [existsCont, hs, h1, h2]
  · intro s hs h
    rcases h with h1 | ⟨h2, h3⟩
    · simp [existsCont, hs, h1]
    · cases h1 : WIFEXITED s <;> simp [existsCont, hs, h1, h2, h3]
  · intro hs
    simp [existsCont, hs]

/-- Claim C2 witness at concrete wait statuses: status 0 is exit code 0,
status 256 is exit code 1, status 512 is exit code 2, status 9 is a
signal-terminated status, and an absent status fails. -/
theorem exists_exit_code_contract_witness :
    existsCont ⟨some 0, "", ""⟩ = Except.ok true ∧
    existsCont ⟨some 256, "", ""⟩ = Except.ok false ∧
    existsCont ⟨some 512, "o", "e"⟩ = Except.error (unexpectedResultMsg 512 "o" "e") ∧
    existsCont ⟨some 9, "o", "e"⟩ = Except.error (unexpectedResultMsg 9 "o" "e") ∧
    existsCont ⟨none, "o", "e"⟩ = Except.error "Failed to reap the subprocess" :=
  ⟨(exists_exit_code_contract ⟨some 0, "", ""⟩).1 0 rfl (by decide) (by decide),
   (exists_exit_code_contract ⟨some 256, "", ""⟩).2.1 256 rfl (by decide) (by decide),
   (exists_exit_code_contract ⟨some 512, "o", "e"⟩).2.2.1 512 rfl (by decide),
   (exists_exit_code_contract ⟨some 9, "o", "e"⟩).2.2.1 9 rfl (by decide),
   (exists_exit_code_contract ⟨none, "o", "e"⟩).2.2.2 rfl⟩

/-- A stdout line qualifies for the du parser: tokenized on runs of spaces
and tabs it has exactly two fields, the second field is exactly the
normalized query path, and the first field parses as a nonnegative
integer. -/
def duLineQualifies (path line : String) : Bool :=
  match strTokenize line " \t" with
  | [num, p] => p == path && (numify num).isSome
  | _ => false

/-- The du scanning loop returns exactly the parsed first field of the
first qualifying line, and nothing when no line qualifies. -/
theorem duScan_eq_find (path : String) (lines : List String) :
    duScan path lines =
      (lines.find? (duLineQualifies path)).bind
        (fun l =>
          match strTokenize l " \t" with
          | [num, _] => numify num
          | _ => none) := by
  induction lines with
  | nil => rfl
  | cons line rest ih =>
    cases hf : strTokenize line " \t" with
    | nil =>
      have hq : duLineQualifies path line = false := by
        simp [duLineQualifies, hf]
      simp [duScan, hf, List.find?, hq, ih]
    | cons a as =>
      cases as with
      | nil =>
        have hq : duLineQualifies path line = false := by
          simp [duLineQualifies, hf]
        simp [duScan, hf, List.find?, hq, ih]
      | cons b bs =>
        cases bs with
        | nil =>
          by_cases hp : b = path
          · cases hn : numify a with
            | some k =>
              have hq : duLineQualifies path line = true := by
                simp [duLineQualifies, hf, hp, hn]
              simp [duScan, hf, hp, hn, List.find?, hq]
            | none =>
              have hq : duLineQualifies path line = false := by
                simp [duLineQualifies, hf, hn]
              simp [duScan, hf, hp, hn, List.find?, hq, ih]
          · have hq : duLineQualifies path line = false := by
              simp [duLineQualifies, hf, hp]
            simp [duScan, hf, hp, List.find?, hq, ih]
        | cons c cs =>
          have hq : duLineQualifies path line = false := by
            simp [duLineQualifies, hf]
          simp [duScan, hf, List.find?, hq, ih]

/-- Claim C1: on exit status 0, du scans stdout line by line; the first
qualifying line (exactly two whitespace-run tokens, second token equal to
the normalized query path, first token a nonnegative integer) produces the
parsed integer, non-qualifying lines being skipped; if no line qualifies,
du fails with the unexpected-output-format error carrying the raw stdout
text. -/
theorem du_parse_first_qualifying (path out err : String) :
    (∀ line, (strTokenize out "\n").find? (duLineQualifies path) = some line →
      ∃ num n, strTokenize line " \t" = [num, path] ∧ numify num = some n ∧
        duCont path ⟨some 0, out, err⟩ = Except.ok n) ∧
    ((strTokenize out "\n").find? (duLineQualifies path) = none →
      duCont path ⟨some 0, out, err⟩ =
        Except.error ("Unexpected output format: " ++ out) ∧
      strContains ("Unexpected output format: " ++ out) out = true) := by
  constructor
  · intro line hfind
    have hq : duLineQualifies path line = true := List.find?_some hfind
    rw [duLineQualifies] at hq
    cases hf : strTokenize line " \t" with
    | nil => rw [hf] at hq; simp at hq
    | cons a as =>
      cases as with
      | nil => rw [hf] at hq; simp at hq
      | cons b bs =>
        cases bs with
        | cons c cs => rw [hf] at hq; simp at hq
        | nil =>
          rw [hf] at hq
          simp only [Bool.and_eq_true, beq_iff_eq] at hq
          obtain ⟨hp, hsome⟩ := hq
          obtain ⟨n, hn⟩ := Option.isSome_iff_exists.mp hsome
          refine ⟨a, n, by rw [hp], hn, ?_⟩
          simp [duCont, duScan_eq_find, hfind, hf, hn]
  · intro hfind
    constructor
    · simp [duCont, duScan_eq_find, hfind]
    · exact strContains_of_data _ _ "Unexpected output format: ".data []
        (by simp [string_data_append])

/-- Claim C1 witness on the spec's example: a warning line, a blank line
and one qualifying line parse to 15360; output with no qualifying line
fails with the unexpected-output-format error carrying the raw text. -/
theorem du_parse_first_qualifying_witness :
    duCont "/data/foo" ⟨some 0, "WARN spam\n\n15360 /data/foo\n", ""⟩ = Except.ok 15360 ∧
    duCont "/data/foo" ⟨some 0, "WARN spam\nnothing here\n", ""⟩ =
      Except.error ("Unexpected output format: " ++ "WARN spam\nnothing here\n") := by
  constructor
  · obtain ⟨num, n, htok, hn, hres⟩ :=
      (du_parse_first_qualifying "/data/foo" "WARN spam\n\n15360 /data/foo\n" "").1
        "15360 /data/foo" (by decide)
    have h1 : strTokenize "15360 /data/foo" " \t" = ["15360", "/data/foo"] := by decide
    rw [h1] at htok
    injection htok with ha hrest
    rw [← ha] at hn
    have h2 : numify "15360" = some 15360 := by decide
    rw [h2] at hn
    injection hn with hv
    rw [hv]
    exact hres
  · exact ((du_parse_first_qualifying "/data/foo" "WARN spam\nnothing here\n" "").2
      (by decide)).1

theorem statusMsg_ne_formatMsg (s : Nat) (out err m : String) :
    unexpectedResultMsg s out err ≠ "Unexpected output format: " ++ m := by
  intro h
  have hd := congrArg (fun t => t.data.take 12) h
  simp only [unexpectedResultMsg, string_data_append, List.append_assoc] at hd
  rw [List.take_append_of_le_length (by decide),
    List.take_append_of_le_length (by decide)] at hd
  exact absurd hd (by decide)

theorem reapMsg_ne_formatMsg (m : String) :
    "Failed to reap the subprocess" ≠ "Unexpected output format: " ++ m := by
  intro h
  have hd := congrArg (fun t => t.data.take 1) h
  simp only [string_data_append] at hd
  rw [List.take_append_of_le_length (by decide)] at hd
  exact absurd hd (by decide)

/-- Claim C6: when the du subprocess has an absent or nonzero exit status
the operation fails with the pre-parse status failure; stdout is never
scanned for qualifying lines: the outcome does not depend on the query
path, and the failure is never the parse-stage unexpected-output-format
error. -/
theorem du_status_failure_before_parsing (path : String) (r : CommandResult) :
    (r.status = none →
      duCont path r = Except.error "Failed to reap the subprocess" ∧
      (∀ q, duCont q r = duCont path r) ∧
      (∀ m, duCont path r ≠ Except.error ("Unexpected output format: " ++ m))) ∧
    (∀ s, r.status = some s → s ≠ 0 →
      duCont path r = Except.error (unexpectedResultMsg s r.out r.err) ∧
      (∀ q, duCont q r = duCont path r) ∧
      (∀ m, duCont path r ≠ Except.error ("Unexpected output format: " ++ m))) := by
  constructor
  · intro hs
    have he : duCont path r = Except.error "Failed to reap the subprocess" := by
      simp [duCont, hs]
    refine ⟨he, ?_, ?_⟩
    · intro q
      rw [he]
      simp [duCont, hs]
    · intro m hcontra
      rw [he] at hcontra
      injection hcontra with hmsg
      exact reapMsg_ne_formatMsg m hmsg
  · intro s hs hnz
    have he : duCont path r = Except.error (unexpectedResultMsg s r.out r.err) := by
      simp [duCont, hs, hnz]
    refine ⟨he, ?_, ?_⟩
    · intro q
      rw [he]
      simp [duCont, hs, hnz]
    · intro m hcontra
      rw [he] at hcontra
      injection hcontra with hmsg
      exact statusMsg_ne_formatMsg s r.out r.err m hmsg

/-- Claim C6 witness: with stdout that would parse successfully, an absent
status and a nonzero status both fail with the status failure, and the
outcome is independent of the query path. -/
theorem du_status_failure_before_parsing_witness :
    duCont "/x" ⟨none, "8 /x", ""⟩ = Except.error "Failed to reap the subprocess" ∧
    duCont "/x" ⟨some 256, "8 /x", ""⟩ =
      Except.error (unexpectedResultMsg 256 "8 /x" "") ∧
    duCont "/y" ⟨some 256, "8 /x", ""⟩ = duCont "/x" ⟨some 256, "8 /x", ""⟩ :=
  ⟨((du_status_failure_before_parsing "/x" ⟨none, "8 /x", ""⟩).1 rfl).1,
   ((du_status_failure_before_parsing "/x" ⟨some 256, "8 /x", ""⟩).2 256 rfl
      (by decide)).1,
   ((du_status_failure_before_parsing "/x" ⟨some 256, "8 /x", ""⟩).2 256 rfl
      (by decide)).2.1 "/y"⟩

/-- The unexpected-result failure message carries the full diagnostic
triple: the stringified status, the captured stdout and the captured
stderr. -/
theorem unexpectedResultMsg_carries (s : Nat) (out err : String) :
    strContains (unexpectedResultMsg s out err) (toString s) = true ∧
    strContains (unexpectedResultMsg s out err) out = true ∧
    strContains (unexpectedResultMsg s out err) err = true := by
  refine ⟨?_, ?_, ?_⟩
  · apply strContains_of_data _ _ "Unexpected result from the subprocess: status=".data
      ((", stdout=" ++ out ++ ", stderr=" ++ err).data)
    simp [unexpectedResultMsg, string_data_append, List.append_assoc]
  · apply strContains_of_data _ _
      (("Unexpected result from the subprocess: status=" ++ toString s ++ ", stdout=").data)
      ((", stderr=" ++ err).data)
    simp [unexpectedResultMsg, string_data_append, List.append_assoc]
  · apply strContains_of_data _ _
      (("Unexpected result from the subprocess: status=" ++ toString s ++ ", stdout=" ++
        out ++ ", stderr=").data) []
    simp [unexpectedResultMsg, string_data_append, List.append_assoc]

/-- Claim C5 counterexample: the exists operation's failure for a missing
exit status is the fixed reap-failure message, which carries neither the
captured stdout nor the captured stderr. -/
theorem exists_reap_failure_lacks_streams :
    existsCont ⟨none, "OUT", "ERR"⟩ = Except.error "Failed to reap the subprocess" ∧
    strContains "Failed to reap the subprocess" "OUT" = false ∧
    strContains "Failed to reap the subprocess" "ERR" = false := by
  refine ⟨rfl, by decide, by decide⟩

/-- Claim C5 (amended): failures for an unexpected exit code carry the
diagnostic triple (stringified status, stdout, stderr) in the exists, du
and rm operations; the failure for a missing exit status is the fixed
reap-failure message, which is independent of the captured streams and
does not include them. -/
theorem failure_diagnostic_triple (r : CommandResult) :
    (∀ s, r.status = some s →
      (WIFEXITED s = false ∨ (WEXITSTATUS s ≠ 0 ∧ WEXITSTATUS s ≠ 1)) →
      existsCont r = Except.error (unexpectedResultMsg s r.out r.err)) ∧
    (∀ s, r.status = some s → s ≠ 0 →
      rmCont r = Except.error (unexpectedResultMsg s r.out r.err) ∧
      ∀ p, duCont p r = Except.error (unexpectedResultMsg s r.out r.err)) ∧
    (∀ s out err, strContains (unexpectedResultMsg s out err) (toString s) = true ∧
      strContains (unexpectedResultMsg s out err) out = true ∧
      strContains (unexpectedResultMsg s out err) err = true) ∧
    (r.status = none →
      existsCont r = Except.error "Failed to reap the subprocess" ∧
      rmCont r = Except.error "Failed to reap the subprocess" ∧
      ∀ out err, existsCont ⟨none, out, err⟩ = existsCont r ∧
        rmCont ⟨none, out, err⟩ = rmCont r) := by
  refine ⟨?_, ?_, ?_, ?_⟩
  · intro s hs h
    rcases h with h1 | ⟨h2, h3⟩
    · simp [existsCont, hs, h1]
    · cases h1 : WIFEXITED s <;> simp [existsCont, hs, h1, h2, h3]
  · intro s hs hnz
    exact ⟨by simp [rmCont, hs, hnz], fun p => by simp [duCont, hs, hnz]⟩
  · intro s out err
    exact unexpectedResultMsg_carries s out err
  · intro hs
    refine ⟨by simp [existsCont, hs], by simp [rmCont, hs], ?_⟩
    intro out err
    constructor
    · simp [existsCont, hs]
    · simp [rmCont, hs]

/-- Claim C5 witness: an unexpected exit status failure carries the triple
concretely, and the missing-status failure is the bare reap message. -/
theorem failure_diagnostic_triple_witness :
    existsCont ⟨some 512, "OUT", "ERR"⟩ =
      Except.error (unexpectedResultMsg 512 "OUT" "ERR") ∧
    rmCont ⟨some 256, "OUT", "ERR"⟩ =
      Except.error (unexpectedResultMsg 256 "OUT" "ERR") ∧
    strContains (unexpectedResultMsg 512 "OUT" "ERR") "OUT" = true ∧
    strContains (unexpectedResultMsg 512 "OUT" "ERR") "ERR" = true ∧
    rmCont ⟨none, "OUT", "ERR"⟩ = Except.error "Failed to reap the subprocess" :=
  ⟨(failure_diagnostic_triple ⟨some 512, "OUT", "ERR"⟩).1 512 rfl (by decide),
   ((failure_diagnostic_triple ⟨some 256, "OUT", "ERR"⟩).2.1 256 rfl (by decide)).1,
   ((failure_diagnostic_triple ⟨some 512, "OUT", "ERR"⟩).2.2.1 512 "OUT" "ERR").2.1,
   ((failure_diagnostic_triple ⟨some 512, "OUT", "ERR"⟩).2.2.1 512 "OUT" "ERR").2.2,
   ((failure_diagnostic_triple ⟨none, "OUT", "ERR"⟩).2.2.2 rfl).2.1⟩

/-- Claim C7: when the local source path does not exist, copyFromLocal
fails at once with a not-found failure naming that path and never spawns
the external tool; the copy-in subprocess is spawned exactly when the local
path exists. -/
theorem copyFromLocal_precondition (ex : String → Bool) (hadoop fromPath toPath : String) :
    (ex fromPath = false →
      copyFromLocalCmd ex hadoop fromPath toPath =
        HdfsCall.failure ("Failed to find " ++ fromPath) ∧
      strContains ("Failed to find " ++ fromPath) fromPath = true ∧
      ∀ prog args, copyFromLocalCmd ex hadoop fromPath toPath ≠ HdfsCall.spawn prog args) ∧
    (ex fromPath = true →
      copyFromLocalCmd ex hadoop fromPath toPath =
        HdfsCall.spawn hadoop
          ["hadoop", "fs", "-copyFromLocal", fromPath, absolutePath toPath]) := by
  constructor
  · intro h
    refine ⟨by simp [copyFromLocalCmd, h], ?_, ?_⟩
    · exact strContains_of_data _ _ "Failed to find ".data []
        (by simp [string_data_append])
    · intro prog args hc
      rw [copyFromLocalCmd] at hc
      simp [h] at hc
  · intro h
    simp [copyFromLocalCmd, h]

/-- Claim C7 witness: with an existence oracle answering false the call is
the not-found failure; answering true it is the spawn of the copy-in
subcommand. -/
theorem copyFromLocal_precondition_witness :
    copyFromLocalCmd (fun _ => false) "hadoop" "/tmp/a" "b" =
      HdfsCall.failure ("Failed to find " ++ "/tmp/a") ∧
    strContains ("Failed to find " ++ "/tmp/a") "/tmp/a" = true ∧
    copyFromLocalCmd (fun _ => true) "hadoop" "/tmp/a" "b" =
      HdfsCall.spawn "hadoop"
        ["hadoop", "fs", "-copyFromLocal", "/tmp/a", absolutePath "b"] :=
  ⟨((copyFromLocal_precondition (fun _ => false) "hadoop" "/tmp/a" "b").1 rfl).1,
   ((copyFromLocal_precondition (fun _ => false) "hadoop" "/tmp/a" "b").1 rfl).2.1,
   (copyFromLocal_precondition (fun _ => true) "hadoop" "/tmp/a" "b").2 rfl⟩

/-- Resolution through `HADOOP_HOME` yields the home directory (with one
trailing slash stripped) followed by the fixed subpath `/bin/hadoop`. -/
theorem resolveHadoop_home (d : String) :
    resolveHadoop none (some d) = (⟨dropEndSlash d.data⟩ : String) ++ "/bin/hadoop" := by
  apply String.ext
  show (pathJoin (pathJoin d "bin") "hadoop").data = _
  rw [pathJoin_data, pathJoin_data]
  have h1 : dropLeadSlash "bin".data = ['b', 'i', 'n'] := rfl
  have h2 : dropLeadSlash "hadoop".data = ['h', 'a', 'd', 'o', 'o', 'p'] := rfl
  rw [h1, h2]
  have h3 : dropEndSlash (dropEndSlash d.data ++ '/' :: ['b', 'i', 'n']) =
      dropEndSlash d.data ++ '/' :: ['b', 'i', 'n'] := by
    apply dropEndSlash_of_last_ne _ 'n'
    · rw [List.getLast?_append_cons]
      rfl
    · decide
  rw [h3, string_data_append]
  have h4 : "/bin/hadoop".data = ['/', 'b', 'i', 'n', '/', 'h', 'a', 'd', 'o', 'o', 'p'] := rfl
  rw [h4]
  simp

/-- Claim C8: client construction resolves the CLI binary with an explicit
path first, then the `HADOOP_HOME` root joined with `bin/hadoop`, then the
bare name `hadoop` from the search path; it then runs the version command
as a liveness check and yields an error (no client) exactly when that
check fails. -/
theorem create_resolution_and_liveness (explicitHadoop hadoopHome : Option String)
    (shell : String → Except String String) :
    (∀ p, explicitHadoop = some p → resolveHadoop explicitHadoop hadoopHome = p) ∧
    (∀ d, explicitHadoop = none → hadoopHome = some d →
      resolveHadoop explicitHadoop hadoopHome =
        (⟨dropEndSlash d.data⟩ : String) ++ "/bin/hadoop") ∧
    (explicitHadoop = none → hadoopHome = none →
      resolveHadoop explicitHadoop hadoopHome = "hadoop") ∧
    (∀ e, shell (resolveHadoop explicitHadoop hadoopHome ++ " version 2>&1") =
        Except.error e →
      hdfsCreate explicitHadoop hadoopHome shell = Except.error e) ∧
    (∀ o, shell (resolveHadoop explicitHadoop hadoopHome ++ " version 2>&1") =
        Except.ok o →
      hdfsCreate explicitHadoop hadoopHome shell =
        Except.ok (resolveHadoop explicitHadoop hadoopHome)) := by
  refine ⟨?_, ?_, ?_, ?_, ?_⟩
  · intro p h
    subst h
    rfl
  · intro d h1 h2
    subst h1
    subst h2
    exact resolveHadoop_home d
  · intro h1 h2
    subst h1
    subst h2
    rfl
  · intro e h
    simp [hdfsCreate, h]
  · intro o h
    simp [hdfsCreate, h]

/-- Claim C8 witness: each resolution branch at a concrete input, a failing
liveness check propagating the shell error, and a passing liveness check
yielding the client. -/
theorem create_resolution_and_liveness_witness :
    resolveHadoop (some "/usr/bin/hadoop") none = "/usr/bin/hadoop" ∧
    resolveHadoop none (some "/opt/hadoop") =
      (⟨dropEndSlash "/opt/hadoop".data⟩ : String) ++ "/bin/hadoop" ∧
    resolveHadoop none none = "hadoop" ∧
    hdfsCreate none none (fun _ => Except.error "hadoop: command not found") =
      Except.error "hadoop: command not found" ∧
    hdfsCreate none none (fun _ => Except.ok "Hadoop 2.0.0") = Except.ok "hadoop" :=
  ⟨(create_resolution_and_liveness (some "/usr/bin/hadoop") none
      (fun _ => Except.ok "")).1 "/usr/bin/hadoop" rfl,
   (create_resolution_and_liveness none (some "/opt/hadoop")
      (fun _ => Except.ok "")).2.1 "/opt/hadoop" rfl rfl,
   (create_resolution_and_liveness none none (fun _ => Except.ok "")).2.2.1 rfl rfl,
   (create_resolution_and_liveness none none
      (fun _ => Except.error "hadoop: command not found")).2.2.2.1
        "hadoop: command not found" rfl,
   (create_resolution_and_liveness none none
      (fun _ => Except.ok "Hadoop 2.0.0")).2.2.2.2 "Hadoop 2.0.0" rfl⟩

/-- Modelled from the spec: the filesystem objects traversed by
`DiskUsageCollector::usage` (the collector's implementation file is not
among the sources; only its test `disk_quota_tests.cpp` is).  A node is a
file with an on-disk (block-rounded) size, a symbolic link with a target
path and its own on-disk size, or a directory of entries. -/
inductive FsNode where
  | file : Nat → FsNode
  | symlink : String → Nat → FsNode
  | dir : List FsNode → FsNode

mutual
/-- Modelled from the spec: `usage` recursively sums the on-disk sizes
under a node; a symbolic link is counted as its own on-disk size and its
target is never followed or descended into. -/
def usage : FsNode → Nat
  | .file n => n
  | .symlink _ n => n
  | .dir entries => usageList entries

/-- Modelled from the spec: the summed usage of a directory's entries. -/
def usageList : List FsNode → Nat
  | [] => 0
  | e :: rest => usage e + usageList rest
end

/-- Claim C9 (modelled from the spec): a symbolic link contributes only its
own on-disk size, independently of its target, and is never descended
into; hence a directory holding an 8 KiB file and a link back to that very
directory measures at least 8192 bytes and, the link's own size being
smaller than a file block, fewer than 16384; and measuring starting at the
link itself yields only the link's own size, strictly fewer than 8192. -/
theorem usage_symlink_not_followed (f s : Nat) (t u : String) :
    usage (FsNode.dir [FsNode.file f, FsNode.symlink t s]) = f + s ∧
    usage (FsNode.symlink t s) = usage (FsNode.symlink u s) ∧
    usage (FsNode.symlink t s) = s ∧
    (8192 ≤ f → f + s < 16384 →
      8192 ≤ usage (FsNode.dir [FsNode.file f, FsNode.symlink t s]) ∧
      usage (FsNode.dir [FsNode.file f, FsNode.symlink t s]) < 16384) ∧
    (s < 8192 → usage (FsNode.symlink t s) < 8192) := by
  have hd : usage (FsNode.dir [FsNode.file f, FsNode.symlink t s]) = f + s := by
    simp [usage, usageList]
  refine ⟨hd, rfl, rfl, ?_, ?_⟩
  · intro h1 h2
    rw [hd]
    omega
  · intro h
    exact h

/-- Claim C9 witness: an 8192-byte file next to a 64-byte link back to the
directory measures 8256 bytes at the directory and 64 bytes at the link. -/
theorem usage_symlink_not_followed_witness :
    usage (FsNode.dir [FsNode.file 8192, FsNode.symlink "/work" 64]) = 8192 + 64 ∧
    8192 ≤ usage (FsNode.dir [FsNode.file 8192, FsNode.symlink "/work" 64]) ∧
    usage (FsNode.dir [FsNode.file 8192, FsNode.symlink "/work" 64]) < 16384 ∧
    usage (FsNode.symlink "/work" 64) < 8192 :=
  ⟨(usage_symlink_not_followed 8192 64 "/work" "/v").1,
   ((usage_symlink_not_followed 8192 64 "/work" "/v").2.2.2.1
      (by decide) (by decide)).1,
   ((usage_symlink_not_followed 8192 64 "/work" "/v").2.2.2.1
      (by decide) (by decide)).2,
   (usage_symlink_not_followed 8192 64 "/work" "/v").2.2.2.2 (by decide)⟩
